import Mathlib

/-!
Shallow embedding of `src/ledger-bridge-keyring.ts` (LedgerBridgeKeyring).

Modelling conventions:
* Machine integers in the source are JS numbers used only as small non-negative
  counters or as page cursors; they are modelled as `Nat`, except the page
  cursor which can become negative and is modelled as `Int`.
* JS objects used as string-keyed maps (`accountDetails`, `paths`,
  `messageCallbacks`) are modelled as association lists with JS object
  semantics (set = overwrite-or-append, delete = remove key).
* Throwing code is modelled with `Except`; where the source mutates state
  before throwing, the model returns the mutated state next to the `Except`.
* External libraries that the source delegates to (ethereumjs-util's
  `toChecksumAddress`, `hdkey` derivation, `eth-sig-util` recovery, the device
  bridge itself, JS `String.prototype.toLowerCase`) are out of scope per the
  specification and appear as function parameters, constrained only where a
  proof needs an interface fact about them.
-/

/-- Source constant `pathBase` (line 14). -/
def pathBase : String := "m"

/-- Source constant `hdPathString` (line 15): the default derivation root. -/
def hdPathString : String := "m/44'/60'/0'"

/-- The Ledger Live path literal compared against in `#isLedgerLiveHdPath` (line 934). -/
def ledgerLivePathString : String := "m/44'/60'/0'/0/0"

/-- Source constant `MIN_PAGE_NUMBER` (line 20). `Int` because the page cursor
arithmetic in `#getPage` can produce negative values. -/
def MIN_PAGE_NUMBER : Int := 1

/-- Source constant `MAX_INDEX` (line 21): the brute-force scan limit. -/
def MAX_INDEX : Nat := 1000

/-- Errors thrown or used as promise rejection reasons in the source, one
constructor per distinct `new Error(...)` site, plus `channelError` for an
`error` payload forwarded verbatim from the bridge. -/
inductive KError
  /-- removeAccount: `Address ${address} not found in this keyring` (line 391). -/
  | addressNotFoundInKeyring (address : String)
  /-- unlockAccountByAddress: `Account for address ... not found` (line 569). -/
  | accountForAddressNotFound (checksummedAddress : String)
  /-- unlockAccountByAddress: `Account ... does not belong to the connected device` (line 579). -/
  | accountDoesNotBelongToDevice (address : String)
  /-- unlock: `Unknown error` (line 331). -/
  | unknownError
  /-- signPersonalMessage / signTypedData: `Unknown error while signing message` (lines 556, 653). -/
  | unknownSigningMessageError
  /-- #signTransaction: `Unknown error while signing transaction` (line 817). -/
  | unknownSigningTransactionError
  /-- `The signature doesnt match the right address` (lines 548, 648). -/
  | signatureMismatch
  /-- #signTransaction: `The transaction signature is not valid` (line 811). -/
  | invalidTransactionSignature
  /-- signTypedData: `Only version 4 of typed data signing is supported` (line 594). -/
  | unsupportedTypedDataVersion
  /-- #getPathIndex: `Unknown address` (line 889). -/
  | unknownAddress
  /-- #sendMessage: `The iframe is not loaded yet` (line 749). -/
  | iframeNotLoaded
  /-- updateTransportMethod: `Ledger transport could not be updated` (line 442). -/
  | transportNotUpdated
  /-- an `error` field of a response payload, forwarded as the rejection reason. -/
  | channelError (message : String)
deriving DecidableEq, Repr

/-- Key lookup on a JS-object-as-map: does the object have this own property. -/
def recordHas {κ α : Type} [BEq κ] (l : List (κ × α)) (k : κ) : Bool :=
  l.any (fun p => p.1 == k)

/-- Property read on a JS-object-as-map. -/
def recordGet {κ α : Type} [BEq κ] (l : List (κ × α)) (k : κ) : Option α :=
  (l.find? (fun p => p.1 == k)).map Prod.snd

/-- Property write on a JS-object-as-map: overwrite in place if the key exists,
otherwise append (JS insertion order). -/
def recordSet {κ α : Type} [BEq κ] (l : List (κ × α)) (k : κ) (v : α) : List (κ × α) :=
  if recordHas l k then l.map (fun p => if p.1 == k then (k, v) else p)
  else l ++ [(k, v)]

/-- The JS `delete` operator on a JS-object-as-map. -/
def recordDelete {κ α : Type} [BEq κ] (l : List (κ × α)) (k : κ) : List (κ × α) :=
  l.filter (fun p => !(p.1 == k))

/-- Per-account metadata stored in `accountDetails` (source type `AccountDetails`,
lines 96-100; `index` is never written by this file and is omitted; `bip44` and
`hdPath` are always set together by every writer in this file, so they are
modelled as mandatory). -/
structure AccountDetails where
  bip44 : Bool
  hdPath : String
deriving DecidableEq, Repr

/-- The keyring state fields that the account-management operations read or
write: `hdPath`, `accounts`, `accountDetails`, `paths`, `implementFullBIP44`
(fields of `LedgerBridgeKeyring`, lines 219-231). -/
structure KeyringState where
  hdPath : String
  accounts : List String
  accountDetails : List (String × AccountDetails)
  paths : List (String × Nat)
  implementFullBIP44 : Bool
deriving DecidableEq, Repr

/-- Field initializers of `LedgerBridgeKeyring` (lines 219-231) for the fields
of `KeyringState`, i.e. the state the constructor sees before `deserialize`. -/
def initialKeyringState : KeyringState :=
  { hdPath := hdPathString
    accounts := []
    accountDetails := []
    paths := []
    implementFullBIP44 := false }

/-- `#isLedgerLiveHdPath` (lines 933-935). -/
def isLedgerLiveHdPath (hdPath : String) : Bool :=
  hdPath == ledgerLivePathString

/-- `#getPathForIndex` (lines 926-931). -/
def getPathForIndex (hdPath : String) (index : Nat) : String :=
  if isLedgerLiveHdPath hdPath then
    "m/44'/60'/" ++ toString index ++ "'/0/0"
  else
    hdPath ++ "/" ++ toString index

/-- `#addressFromIndex` (lines 869-875). The HD child-key derivation
(`hdkey`) composed with `publicToAddress` is the external parameter
`derivedAddressHex`, mapping a derivation path to the raw hex address of the
derived public key; `toChecksumAddress` is the external ethereumjs-util
checksum. A set master key (`this.hdk`) is implicit in `derivedAddressHex`
being a total function. -/
def addressFromIndex (toChecksumAddress : String → String)
    (derivedAddressHex : String → String) (basePath : String) (i : Nat) : String :=
  toChecksumAddress ("0x" ++ derivedAddressHex (basePath ++ "/" ++ toString i))

/-- The `for` loop of `#getPathIndex` (lines 883-887): scan indices upward from
`i` to `MAX_INDEX`, returning the first index whose derived address matches.
`addrOf` is the derivation `i ↦ #addressFromIndex(pathBase, i)`. -/
def scanForIndex (addrOf : Nat → String) (checksummedAddress : String) (i : Nat) :
    Except KError Nat :=
  if h : i < MAX_INDEX then
    if checksummedAddress = addrOf i then .ok i
    else scanForIndex addrOf checksummedAddress (i + 1)
  else .error .unknownAddress
termination_by MAX_INDEX - i
decreasing_by omega

/-- `#getPathIndex` (lines 877-890): consult the `paths` cache, otherwise
linearly scan derivation indices `0 ≤ i < MAX_INDEX`. -/
def getPathIndex (paths : List (String × Nat)) (addrOf : Nat → String)
    (checksummedAddress : String) : Except KError Nat :=
  match recordGet paths checksummedAddress with
  | some i => .ok i
  | none => scanForIndex addrOf checksummedAddress 0

/-- `#pathFromAddress` (lines 919-924). -/
def pathFromAddress (toChecksumAddress : String → String) (paths : List (String × Nat))
    (addrOf : Nat → String) (hdPath : String) (address : String) : Except KError String :=
  (getPathIndex paths addrOf (toChecksumAddress address)).map (getPathForIndex hdPath)

/-- `#accountHasDetails` (lines 957-961). -/
def accountHasDetails (toChecksumAddress : String → String)
    (accountDetails : List (String × AccountDetails)) (account : String) : Bool :=
  recordHas accountDetails (toChecksumAddress account)

/-- The option bag accepted by `deserialize` (source type
`LedgerBridgeKeyringOptions`, lines 102-109). `bridgeUrl` is not modelled: the
claims under study pass no `bridgeUrl`, in which case `#setBridgeUrl` receives
the default URL, detects no change and throws nothing. -/
structure DeserializeOpts where
  hdPath : Option String
  accounts : Option (List String)
  accountDetails : Option (List (String × AccountDetails))
  accountIndexes : Option (List (String × Nat))
  implementFullBIP44 : Option Bool
deriving Repr

/-- `#migrateAccountDetails` (lines 892-917). Migration failures for a single
account (`#pathFromAddress` throwing) are swallowed, matching the
`try/catch` + `console.log` in the source. -/
def migrateAccountDetails (toChecksumAddress : String → String) (addrOf : Nat → String)
    (st : KeyringState) (opts : DeserializeOpts) : KeyringState :=
  let st :=
    if isLedgerLiveHdPath st.hdPath then
      match opts.accountIndexes with
      | some indexes =>
          let migrated :=
            indexes.foldl
              (fun d p => recordSet d p.1 ⟨true, getPathForIndex st.hdPath p.2⟩)
              st.accountDetails
          { st with accountDetails := migrated }
      | none => st
    else st
  if !isLedgerLiveHdPath st.hdPath then
    let missing :=
      st.accounts.filter
        (fun account => !accountHasDetails toChecksumAddress st.accountDetails account)
    let migrated :=
      missing.foldl
        (fun d account =>
          match pathFromAddress toChecksumAddress st.paths addrOf st.hdPath account with
          | .ok p => recordSet d (toChecksumAddress account) ⟨false, p⟩
          | .error _ => d)
        st.accountDetails
    { st with accountDetails := migrated }
  else st

/-- `deserialize` (lines 271-288). -/
def deserialize (toChecksumAddress : String → String) (addrOf : Nat → String)
    (st : KeyringState) (opts : DeserializeOpts) : KeyringState :=
  let st := { st with hdPath := opts.hdPath.getD hdPathString }
  let st := { st with accounts := opts.accounts.getD [] }
  let st := { st with accountDetails := opts.accountDetails.getD [] }
  let st :=
    if opts.accountDetails.isNone then migrateAccountDetails toChecksumAddress addrOf st opts
    else st
  let st := { st with implementFullBIP44 := opts.implementFullBIP44.getD false }
  let kept :=
    st.accounts.filter (fun account => accountHasDetails toChecksumAddress st.accountDetails account)
  { st with accounts := kept }

/-- One iteration of the `addAccounts` loop body (lines 343-363) for index `i`,
once the address for `i` has been resolved. In the source the address comes from
`unlock(path)` under the Ledger Live path and from `#addressFromIndex` otherwise;
in either case it is a string not determined by the two account structures, so
the model receives it as data. The `page = 0` write touches no modelled field. -/
def addAccountsStep (toChecksumAddress : String → String) (st : KeyringState)
    (i : Nat) (address : String) : KeyringState :=
  let updated :=
    recordSet st.accountDetails (toChecksumAddress address)
      ⟨isLedgerLiveHdPath st.hdPath, getPathForIndex st.hdPath i⟩
  let st := { st with accountDetails := updated }
  if st.accounts.contains address then st
  else { st with accounts := st.accounts ++ [address] }

/-- The `addAccounts` loop (lines 343-363) over the resolved (index, address)
pairs it processes, in order. -/
def addAccounts (toChecksumAddress : String → String) (st : KeyringState)
    (resolved : List (Nat × String)) : KeyringState :=
  resolved.foldl (fun st p => addAccountsStep toChecksumAddress st p.1 p.2) st

/-- `removeAccount` (lines 387-398). `lower` is the external JS
`String.prototype.toLowerCase`. The source throws before any mutation, so the
error case carries no state. -/
def removeAccount (toChecksumAddress lower : String → String) (st : KeyringState)
    (address : String) : Except KError KeyringState :=
  if !((st.accounts.map lower).contains (lower address)) then
    .error (.addressNotFoundInKeyring address)
  else
    .ok { st with
      accounts := st.accounts.filter (fun a => !(lower a == lower address))
      accountDetails := recordDelete st.accountDetails (toChecksumAddress address) }

/-- `forgetDevice` (lines 661-668), restricted to the fields of `KeyringState`
(it additionally resets `page`, `unlockedAccount` and `hdk`, which are modelled
elsewhere). -/
def forgetDevice (st : KeyringState) : KeyringState :=
  { st with accounts := [], paths := [], accountDetails := [] }

/-- The mutating account-store operations quantified over in the invariant
claim. -/
inductive KeyringOp
  | deserializeOp (opts : DeserializeOpts)
  | addAccountsOp (resolved : List (Nat × String))
  | removeAccountOp (address : String)
  | forgetDeviceOp

/-- Apply one operation. A `removeAccount` that throws leaves the state exactly
as it was, since the source throws before mutating. -/
def applyOp (toChecksumAddress lower : String → String) (addrOf : Nat → String)
    (st : KeyringState) : KeyringOp → KeyringState
  | .deserializeOp opts => deserialize toChecksumAddress addrOf st opts
  | .addAccountsOp resolved => addAccounts toChecksumAddress st resolved
  | .removeAccountOp address =>
      match removeAccount toChecksumAddress lower st address with
      | .ok st2 => st2
      | .error _ => st
  | .forgetDeviceOp => forgetDevice st

/-- Apply a sequence of operations, left to right. -/
def runOps (toChecksumAddress lower : String → String) (addrOf : Nat → String)
    (st : KeyringState) (ops : List KeyringOp) : KeyringState :=
  ops.foldl (applyOp toChecksumAddress lower addrOf) st

/-- Every listed account has an `accountDetails` entry under its checksummed
form (the direction `accounts ⊆ keys(accountDetails)` of the claimed invariant). -/
def accountsHaveDetails (toChecksumAddress : String → String) (st : KeyringState) : Prop :=
  ∀ a ∈ st.accounts, recordHas st.accountDetails (toChecksumAddress a) = true

/-- Every `accountDetails` key is the checksummed form of some listed account
(the converse direction of the claimed invariant). -/
def detailsHaveAccounts (toChecksumAddress : String → String) (st : KeyringState) : Prop :=
  ∀ k ∈ st.accountDetails.map Prod.fst, ∃ a ∈ st.accounts, toChecksumAddress a = k

/-- The two-sided invariant exactly as the claim states it. -/
def twoStructureInvariant (toChecksumAddress : String → String) (st : KeyringState) : Prop :=
  accountsHaveDetails toChecksumAddress st ∧ detailsHaveAccounts toChecksumAddress st

instance (cs : String → String) (st : KeyringState) :
    Decidable (accountsHaveDetails cs st) := by
  unfold accountsHaveDetails; infer_instance

instance (cs : String → String) (st : KeyringState) :
    Decidable (detailsHaveAccounts cs st) := by
  unfold detailsHaveAccounts; infer_instance

instance (cs : String → String) (st : KeyringState) :
    Decidable (twoStructureInvariant cs st) := by
  unfold twoStructureInvariant; infer_instance

/-- The cursor arithmetic of `#getPage` (lines 774-775):
`page += increment; page = Math.min(page, MIN_PAGE_NUMBER)`. -/
def getPageCursorUpdate (page increment : Int) : Int :=
  min (page + increment) MIN_PAGE_NUMBER

/-- Cursor effect of `getFirstPage` (lines 370-373): set `page = 0`, then
`#getPage(1)`. -/
def getFirstPageCursor (_page : Int) : Int :=
  getPageCursorUpdate 0 1

/-- Cursor effect of `getNextPage` (lines 375-377): `#getPage(1)`. -/
def getNextPageCursor (page : Int) : Int :=
  getPageCursorUpdate page 1

/-- Cursor effect of `getPreviousPage` (lines 379-381): `#getPage(-1)`. -/
def getPreviousPageCursor (page : Int) : Int :=
  getPageCursorUpdate page (-1)

/-- The start offset `#getPage` fetches from (line 777):
`from = (page - 1) * perPage`. -/
def pageFromOffset (page perPage : Int) : Int :=
  (page - 1) * perPage

/-- The shape component of an inbound response payload, one constructor per
type guard in the source (lines 142-186): `isSignTransactionResponse` (`v` is a
string), `isSignMessageResponse` (`v` is a number), `isGetAddressMessageResponse`
(`publicKey` present), `isConnectionChangedResponse` (`connected` present). -/
inductive PayloadShape
  | getAddress (address publicKey chainCode : String)
  | signTransaction (v r s : String)
  | signMessage (v : Nat) (r s : String)
  | connectionChanged (connected : Bool)
deriving DecidableEq, Repr

/-- An inbound response payload: an optional shape (failure responses may carry
none) together with the optional `error` field of the source payload type
(line 70). -/
structure IFramePayload where
  shape : Option PayloadShape
  error : Option String
deriving DecidableEq, Repr

/-- `isSignMessageResponse` (lines 154-158). -/
def isSignMessageResponse (p : IFramePayload) : Bool :=
  match p.shape with
  | some (.signMessage _ _ _) => true
  | _ => false

/-- `isSignTransactionResponse` (lines 142-146). -/
def isSignTransactionResponse (p : IFramePayload) : Bool :=
  match p.shape with
  | some (.signTransaction _ _ _) => true
  | _ => false

/-- `getRecoveryId` (lines 188-196) for the only `v` the signing callbacks feed
it (a JS number, guarded by `isSignMessageResponse`): `parseInt(String(v), 10)`
is the identity on a non-negative integer, and `toString(16)` is lowercase hex
(`Nat.toDigits 16`), left-zero-padded to two characters. -/
def getRecoveryId (v : Nat) : String :=
  let recoveryId := String.mk (Nat.toDigits 16 v)
  if recoveryId.length < 2 then "0" ++ recoveryId else recoveryId

/-- `getSignature` (lines 198-206): `0x${r}${s}${recoveryId}`. -/
def getSignature (v : Nat) (r s : String) : String :=
  "0x" ++ r ++ s ++ getRecoveryId v

/-- The settled state of a JS promise. -/
inductive Settled (α : Type)
  | resolved (value : α)
  | rejected (error : KError)
deriving DecidableEq, Repr

/-- ECMAScript promise executor semantics: `resolve` settles only a promise not
yet settled; later calls are ignored. -/
def promiseResolve {α : Type} (st : Option (Settled α)) (value : α) : Option (Settled α) :=
  match st with
  | none => some (.resolved value)
  | some s => some s

/-- ECMAScript promise executor semantics: `reject` settles only a promise not
yet settled; later calls are ignored. -/
def promiseReject {α : Type} (st : Option (Settled α)) (e : KError) : Option (Settled α) :=
  match st with
  | none => some (.rejected e)
  | some s => some s

/-- The response callback `signPersonalMessage` registers (lines 533-559),
applied to a response `(success, payload)`; returns the settled state of the
enclosing promise. `recoverPersonalSignature` (eth-sig-util) and
`toChecksumAddress` (ethereumjs-util) are the external libraries the callback
calls. The source calls `reject` on a mismatch and then calls `resolve`
unconditionally (no early return); under promise semantics the first settle
wins, which the model reproduces exactly. -/
def signPersonalMessageCallback (toChecksumAddress : String → String)
    (recoverPersonalSignature : String → String → String)
    (message withAccount : String)
    (success : Bool) (payload : IFramePayload) : Option (Settled String) :=
  match success, payload.shape with
  | true, some (.signMessage v r s) =>
      let signature := getSignature v r s
      let addressSignedWith := recoverPersonalSignature message signature
      let addressesDifferent :=
        !(toChecksumAddress addressSignedWith == toChecksumAddress withAccount)
      let st : Option (Settled String) := none
      let st := if addressesDifferent then promiseReject st .signatureMismatch else st
      promiseResolve st signature
  | _, _ =>
      promiseReject none
        (match payload.error with
         | some e => .channelError e
         | none => .unknownSigningMessageError)

/-- The response callback `#signTransaction` registers (lines 803-820).
`handleSigning` is the caller-supplied reconstruction of a signed transaction
from the returned `(v, r, s)` components, and `verifySignature` is the external
transaction library's cryptographic check; `Tx` is the transaction type. -/
def signTransactionCallback {Tx : Type} (handleSigning : String → String → String → Tx)
    (verifySignature : Tx → Bool)
    (success : Bool) (payload : IFramePayload) : Option (Settled Tx) :=
  match success, payload.shape with
  | true, some (.signTransaction v r s) =>
      let newOrMutatedTx := handleSigning v r s
      let valid := verifySignature newOrMutatedTx
      if valid then promiseResolve none newOrMutatedTx
      else promiseReject none .invalidTransactionSignature
  | _, _ =>
      promiseReject none
        (match payload.error with
         | some e => .channelError e
         | none => .unknownSigningTransactionError)

/-- Response processing of `signTypedData` (lines 634-655), which throws rather
than using an explicit executor. `recoverTypedSignatureV4` is the external
eth-sig-util recovery applied to the assembled signature (the typed data itself
is fixed ambient input of that closure). -/
def signTypedDataResponse (toChecksumAddress : String → String)
    (recoverTypedSignatureV4 : String → String)
    (withAccount : String)
    (success : Bool) (payload : IFramePayload) : Except KError String :=
  match success, payload.shape with
  | true, some (.signMessage v r s) =>
      let signature := getSignature v r s
      let addressSignedWith := recoverTypedSignatureV4 signature
      if !(toChecksumAddress addressSignedWith == toChecksumAddress withAccount) then
        .error .signatureMismatch
      else
        .ok signature
  | _, _ =>
      .error
        (match payload.error with
         | some e => .channelError e
         | none => .unknownSigningMessageError)

/-- Message actions posted to the bridge (source enum `IFrameMessageAction`,
lines 33-41). -/
inductive IFrameAction
  | ledgerConnectionChange
  | ledgerUnlock
  | ledgerMakeApp
  | ledgerUpdateTransport
  | ledgerSignTransaction
  | ledgerSignPersonalMessage
  | ledgerSignTypedData
deriving DecidableEq, Repr

/-- An outbound message body: action plus string-valued params (the params the
claims exercise are all strings). -/
structure IFrameMessage where
  action : IFrameAction
  params : List (String × String)
deriving DecidableEq, Repr

/-- The keyring fields `#sendMessage` touches (lines 233-250): `iframeLoaded`,
the presence of `iframe.contentWindow` (truthiness of `this.iframe?.contentWindow`),
and the pending-callback table. `uuidv4` message ids are modelled by a counter
of fresh ids; `κ` is the type identifying a registered callback. -/
structure SendState (κ : Type) where
  iframeLoaded : Bool
  hasContentWindow : Bool
  nextMessageId : Nat
  messageCallbacks : List (Nat × κ)
deriving DecidableEq, Repr

/-- `#sendMessage` (lines 735-753): allocate a fresh messageId, register the
callback in `messageCallbacks` FIRST, then check readiness and throw
`The iframe is not loaded yet` if the iframe is not loaded or has no content
window — the insertion is not rolled back. On the ready path the message is
posted (`.ok` carries the posted id and message; `.error` means the throw and
that nothing was posted). -/
def sendMessage {κ : Type} (st : SendState κ) (message : IFrameMessage) (callback : κ) :
    SendState κ × Except KError (Nat × IFrameMessage) :=
  let messageId := st.nextMessageId
  let st2 :=
    { st with
      nextMessageId := st.nextMessageId + 1
      messageCallbacks := st.messageCallbacks ++ [(messageId, callback)] }
  if !st2.iframeLoaded || !st2.hasContentWindow then
    (st2, .error .iframeNotLoaded)
  else
    (st2, .ok (messageId, message))

/-- What the hdk master key material looks like to this file: `publicKey` and
`chainCode` are set together by `#setHdKey` (lines 980-989); a fresh `HDKey()`
has neither. -/
structure HdKeyState where
  publicKey : Option String
  chainCode : Option String
deriving DecidableEq, Repr

/-- `isUnlocked` (lines 290-292): `Boolean(this.hdk?.publicKey)`. -/
def isUnlocked (hdk : HdKeyState) : Bool :=
  hdk.publicKey.isSome

/-- JS `String.prototype.replace` with a string pattern: replaces the first
occurrence only. -/
def jsReplaceFirst (s pat repl : String) : String :=
  match s.splitOn pat with
  | [] => s
  | [_] => s
  | x :: rest => x ++ repl ++ String.intercalate pat rest

/-- `#toLedgerPath` (lines 937-939): `path.replace('m/', '')`. -/
def toLedgerPath (path : String) : String :=
  jsReplaceFirst path ("m/") ("")

/-- JS truthiness of an optional string argument: `undefined` and the empty
string are falsy. -/
def jsTruthy (s : Option String) : Bool :=
  match s with
  | none => false
  | some str => !(str == "")

/-- What the synchronous part of `unlock` did before suspending. -/
inductive UnlockPhase
  /-- the already-unlocked short circuit resolved the promise at once. -/
  | immediatelyResolved (value : String)
  /-- `#sendMessage` was invoked; its outcome (posted id + message, or throw). -/
  | requested (posted : Except KError (Nat × IFrameMessage))
deriving Repr

/-- The synchronous phase of `unlock` (lines 311-335): the already-unlocked
short circuit, the path selection (`hdPath ? #toLedgerPath(hdPath) : this.hdPath`,
with JS truthiness), and the `ledger-unlock` send. Returns the send-state, the
hdk, and what happened; neither is modified before the response arrives. -/
def unlockStep {κ : Type} (st : SendState κ) (hdk : HdKeyState) (currentHdPath : String)
    (hdPathArg : Option String) (callback : κ) :
    SendState κ × HdKeyState × UnlockPhase :=
  if isUnlocked hdk && !(jsTruthy hdPathArg) then
    (st, hdk, .immediatelyResolved "already unlocked")
  else
    let path :=
      if jsTruthy hdPathArg then toLedgerPath (hdPathArg.getD "") else currentHdPath
    let (st2, posted) :=
      sendMessage st ⟨.ledgerUnlock, [("hdPath", path)]⟩ callback
    (st2, hdk, .requested posted)

/-- `unlockAccountByAddress` (lines 565-584). `deviceAddressForPath` is the
outcome of `unlock(hdPath, false)` for the stored path: the address the device
reports, or the rejection it propagates. -/
def unlockAccountByAddress (toChecksumAddress lower : String → String)
    (accountDetails : List (String × AccountDetails))
    (deviceAddressForPath : String → Except KError String)
    (address : String) : Except KError String :=
  let checksummedAddress := toChecksumAddress address
  match recordGet accountDetails checksummedAddress with
  | none => .error (.accountForAddressNotFound checksummedAddress)
  | some details =>
      match deviceAddressForPath details.hdPath with
      | .error e => .error e
      | .ok unlockedAddress =>
          if !(lower unlockedAddress == lower address) then
            .error (.accountDoesNotBelongToDevice address)
          else
            .ok details.hdPath

/-- Externally visible side effects of a signing operation, used to state that
the version gate fires before any of them. -/
inductive SignEffect
  | accountLookup (checksummedAddress : String)
  | channelMessage (action : IFrameAction)
deriving DecidableEq, Repr

/-- `signTypedData` (lines 586-655): the `version === 'V4'` gate, then the
domain/struct hashing (external eth-sig-util, pure), then
`unlockAccountByAddress`, then the `ledger-sign-typed-data` round-trip,
then response verification. The channel's response is the parameter
`channelResponse`; the effect list records, in order, the account lookup and
the channel message that the call performed. -/
def signTypedData (toChecksumAddress lower : String → String)
    (recoverTypedSignatureV4 : String → String)
    (accountDetails : List (String × AccountDetails))
    (deviceAddressForPath : String → Except KError String)
    (channelResponse : Bool × IFramePayload)
    (withAccount : String) (version : Option String) :
    Except KError String × List SignEffect :=
  if !(version == some "V4") then
    (.error .unsupportedTypedDataVersion, [])
  else
    match unlockAccountByAddress toChecksumAddress lower accountDetails
        deviceAddressForPath withAccount with
    | .error e => (.error e, [.accountLookup (toChecksumAddress withAccount)])
    | .ok _hdPath =>
        (signTypedDataResponse toChecksumAddress recoverTypedSignatureV4 withAccount
          channelResponse.1 channelResponse.2,
         [.accountLookup (toChecksumAddress withAccount),
          .channelMessage .ledgerSignTypedData])

/-- `#getAccountsBIP44` (lines 826-851) as a recursion over the remaining loop
iterations: `unlockAddr i` is the address `unlock(#getPathForIndex(i))` reports
for index `i`, and `hasPrevTx` is the external etherscan activity check
(`#hasPreviousTransactions`, lines 941-951). Returns the accumulated page
entries (address, index; `balance` is always `null` in the source and omitted)
and the list of indices the loop unlocked, in order. The entry for an index is
pushed before the activity gate is examined, so an inactive index is itself
included and only the indices after it are cut off. -/
def getAccountsBIP44Loop (unlockAddr : Nat → String) (hasPrevTx : String → Bool)
    (implementFullBIP44 : Bool) : Nat → Nat → List (String × Nat) × List Nat
  | 0, _ => ([], [])
  | k + 1, i =>
      let address := unlockAddr i
      let valid := if implementFullBIP44 then hasPrevTx address else true
      if valid then
        let rest := getAccountsBIP44Loop unlockAddr hasPrevTx implementFullBIP44 k (i + 1)
        ((address, i) :: rest.1, i :: rest.2)
      else
        ([(address, i)], [i])

/-- `#getAccountsBIP44` (lines 826-851): run the loop for `perPage` iterations
starting at `fromIndex`. -/
def getAccountsBIP44 (unlockAddr : Nat → String) (hasPrevTx : String → Bool)
    (implementFullBIP44 : Bool) (fromIndex perPage : Nat) :
    List (String × Nat) × List Nat :=
  getAccountsBIP44Loop unlockAddr hasPrevTx implementFullBIP44 perPage fromIndex

/-- Which pending `ledger-update-transport` callback a table entry is: one
registered by a direct `updateTransportMethod` call made after readiness, or
the one registered by the `iframe.onload` replay of the stored
`delayedPromise` (whose settlement is forwarded to the original pre-readiness
caller). Callers are identified by an abstract `Nat` id. -/
inductive TransportCallback
  | direct (caller : Nat)
  | delayedReplay (caller : Nat)
deriving DecidableEq, Repr

/-- The keyring fields involved in `updateTransportMethod` and the iframe
readiness transition (lines 233-250): `iframeLoaded`, the single
`delayedPromise` slot `(caller, transportType)`, and the pending-callback
table (ids modelled by the fresh counter, as in `SendState`). -/
structure BridgeState where
  iframeLoaded : Bool
  delayedPromise : Option (Nat × String)
  nextMessageId : Nat
  messageCallbacks : List (Nat × TransportCallback)
deriving DecidableEq, Repr

/-- The state after `#setupIframe` ran in the constructor but before the
iframe's `onload` fired: not loaded, no delayed promise, empty callback table. -/
def initialBridgeState : BridgeState :=
  { iframeLoaded := false
    delayedPromise := none
    nextMessageId := 0
    messageCallbacks := [] }

/-- External stimuli of the transport lifecycle. -/
inductive BridgeEvent
  /-- `updateTransportMethod(transportType)` invoked by `caller`. -/
  | callUpdateTransport (caller : Nat) (transportType : String)
  /-- the iframe's one-time `onload` (lines 687-703) fires. -/
  | iframeOnload
  /-- an inbound response for message `messageId` with the given success flag
  (dispatched by `#eventListener`, lines 707-733). -/
  | channelReply (messageId : Nat) (success : Bool)
deriving DecidableEq, Repr

/-- Observable outputs of the transport lifecycle, in order of occurrence. -/
inductive BridgeOutput
  /-- readiness reached (`this.iframeLoaded = true` in `onload`). -/
  | iframeReady
  /-- a `ledger-update-transport` message with this transportType was posted. -/
  | postUpdateTransport (messageId : Nat) (transportType : String)
  /-- the promise of `caller` settled: resolved (`true`) or rejected. -/
  | settled (caller : Nat) (success : Bool)
deriving DecidableEq, Repr

/-- One step of the transport lifecycle.
`callUpdateTransport` (lines 417-447): before readiness, overwrite the single
`delayedPromise` slot and return with the promise pending; after readiness,
send the `ledger-update-transport` message and register a `direct` callback.
`iframeOnload` (lines 687-703): set `iframeLoaded`, then, if a `delayedPromise`
is stored, re-enter `updateTransportMethod` with its transportType — now on the
ready path — registering a `delayedReplay` callback for the original caller
(the slot itself is deleted in the handler's `finally`, i.e. only after that
inner promise settles; no post-readiness code writes the slot meanwhile).
`channelReply` (lines 716-723, 438-444): a matching callback is invoked exactly
once and removed: a `direct` callback settles its caller; a `delayedReplay`
callback settles the original caller through the `onload` handler's
`try/catch/finally`, which then deletes `delayedPromise`. Unmatched replies are
dropped. -/
def bridgeStep (st : BridgeState) : BridgeEvent → BridgeState × List BridgeOutput
  | .callUpdateTransport caller transportType =>
      if st.iframeLoaded then
        ({ st with
            nextMessageId := st.nextMessageId + 1
            messageCallbacks :=
              st.messageCallbacks ++ [(st.nextMessageId, .direct caller)] },
         [.postUpdateTransport st.nextMessageId transportType])
      else
        ({ st with delayedPromise := some (caller, transportType) }, [])
  | .iframeOnload =>
      let st := { st with iframeLoaded := true }
      match st.delayedPromise with
      | some (caller, transportType) =>
          ({ st with
              nextMessageId := st.nextMessageId + 1
              messageCallbacks :=
                st.messageCallbacks ++ [(st.nextMessageId, .delayedReplay caller)] },
           [.iframeReady, .postUpdateTransport st.nextMessageId transportType])
      | none => (st, [.iframeReady])
  | .channelReply messageId success =>
      match recordGet st.messageCallbacks messageId with
      | some (.direct caller) =>
          ({ st with messageCallbacks := recordDelete st.messageCallbacks messageId },
           [.settled caller success])
      | some (.delayedReplay caller) =>
          ({ st with
              messageCallbacks := recordDelete st.messageCallbacks messageId
              delayedPromise := none },
           [.settled caller success])
      | none => (st, [])

/-- Run the transport lifecycle over a list of events, accumulating outputs. -/
def bridgeRun (st : BridgeState) (events : List BridgeEvent) :
    BridgeState × List BridgeOutput :=
  events.foldl
    (fun acc e =>
      let next := bridgeStep acc.1 e
      (next.1, acc.2 ++ next.2))
    (st, [])

/-- Concrete one-account keyring state used to exercise `removeAccount`. -/
def sampleRemoveState : KeyringState :=
  { hdPath := hdPathString
    accounts := ["0xAb"]
    accountDetails := [("0xAb", ⟨false, "m/0"⟩)]
    paths := []
    implementFullBIP44 := false }

/-- `sampleRemoveState` after `removeAccount("0xaB")` with the checksum
modelled as the identity: the case-insensitive match is removed from the
account list and the (identity-)checksummed key `0xaB` is deleted, which
leaves the `0xAb`-keyed entry in place. -/
def sampleRemoveStateAfter : KeyringState :=
  { hdPath := hdPathString
    accounts := []
    accountDetails := [("0xAb", ⟨false, "m/0"⟩)]
    paths := []
    implementFullBIP44 := false }

/-- ASCII-only lowercasing, a concrete executable stand-in for the external JS
`String.prototype.toLowerCase` when witnesses need to evaluate it (hex
addresses are ASCII). -/
def asciiLower (s : String) : String :=
  String.mk (s.data.map
    (fun c => if 65 ≤ c.toNat && c.toNat ≤ 90 then Char.ofNat (c.toNat + 32) else c))

theorem recordHas_iff {κ α : Type} [BEq κ] [LawfulBEq κ] (l : List (κ × α)) (k : κ) :
    recordHas l k = true ↔ ∃ p ∈ l, p.1 = k := by
  simp [recordHas]

theorem recordSet_key_iff {κ α : Type} [BEq κ] [LawfulBEq κ]
    (l : List (κ × α)) (k k' : κ) (v : α) :
    (∃ p ∈ recordSet l k v, p.1 = k') ↔ (∃ p ∈ l, p.1 = k') ∨ k' = k := by
  unfold recordSet
  by_cases h : recordHas l k
  · obtain ⟨q, hq, hqk⟩ := (recordHas_iff l k).mp h
    rw [if_pos h]
    simp only [List.mem_map]
    constructor
    · rintro ⟨a, ⟨a0, ha0, rfl⟩, hk'⟩
      by_cases hb : a0.1 == k
      · right
        rw [if_pos hb] at hk'
        exact hk'.symm
      · left
        rw [if_neg hb] at hk'
        exact ⟨a0, ha0, hk'⟩
    · rintro (⟨p, hp, hk'⟩ | rfl)
      · refine ⟨_, ⟨p, hp, rfl⟩, ?_⟩
        by_cases hb : p.1 == k
        · rw [if_pos hb]
          rw [← hk']
          exact (eq_of_beq hb).symm
        · rw [if_neg hb]
          exact hk'
      · refine ⟨_, ⟨q, hq, rfl⟩, ?_⟩
        rw [if_pos (beq_iff_eq.mpr hqk)]
  · rw [if_neg h]
    constructor
    · rintro ⟨p, hp, hk'⟩
      rw [List.mem_append, List.mem_singleton] at hp
      rcases hp with hp | rfl
      · exact Or.inl ⟨p, hp, hk'⟩
      · exact Or.inr hk'.symm
    · rintro (⟨p, hp, hk'⟩ | rfl)
      · exact ⟨p, by rw [List.mem_append]; exact Or.inl hp, hk'⟩
      · exact ⟨(k', v), by rw [List.mem_append, List.mem_singleton]; exact Or.inr rfl, rfl⟩

theorem recordDelete_key_iff {κ α : Type} [BEq κ] [LawfulBEq κ]
    (l : List (κ × α)) (k k' : κ) :
    (∃ p ∈ recordDelete l k, p.1 = k') ↔ (∃ p ∈ l, p.1 = k') ∧ k' ≠ k := by
  unfold recordDelete
  constructor
  · rintro ⟨p, hp, rfl⟩
    rw [List.mem_filter] at hp
    refine ⟨⟨p, hp.1, rfl⟩, ?_⟩
    have := hp.2
    simpa using this
  · rintro ⟨⟨p, hp, rfl⟩, hne⟩
    refine ⟨p, ?_, rfl⟩
    rw [List.mem_filter]
    exact ⟨hp, by simpa using hne⟩

/-- C3. The claim says the page cursor is clamped to a MINIMUM of 1, that
getNextPage advances it by one and getPreviousPage retreats it by one without
ever dropping below 1. The code instead computes
`page = Math.min(page + increment, MIN_PAGE_NUMBER)` (line 775), i.e. clamps to
a MAXIMUM of 1: starting from the freshly-fetched first page (cursor 1),
getNextPage leaves the cursor at 1 instead of advancing it to 2, getPreviousPage
drives it to 0 (below the claimed minimum), after which the fetch offset
`(page - 1) * perPage` is the negative -5 — contradicting both the claim and
the constant's own name `MIN_PAGE_NUMBER`. -/
theorem page_cursor_min_clamp_is_max_clamp :
    getFirstPageCursor 0 = 1
    ∧ getNextPageCursor (getFirstPageCursor 0) = 1
    ∧ getPreviousPageCursor (getFirstPageCursor 0) = 0
    ∧ pageFromOffset (getPreviousPageCursor (getFirstPageCursor 0)) 5 = -5
    ∧ (∀ page : Int, getNextPageCursor page ≤ 1) := by
  refine ⟨by decide, by decide, by decide, by decide, ?_⟩
  intro page
  exact min_le_right _ _

/-- C8: for every `options.version` other than the exact string V4 (including
an absent version), signTypedData fails with the unsupported-version error
before performing any account lookup, unlock, or channel message (empty effect
list); the response, account table and device are never consulted, and no
keyring state is touched (the model's error path reads none of them). -/
theorem signTypedData_version_gate (cs lower : String → String)
    (recover : String → String)
    (accountDetails : List (String × AccountDetails))
    (deviceAddressForPath : String → Except KError String)
    (channelResponse : Bool × IFramePayload)
    (withAccount : String) (version : Option String)
    (hv : version ≠ some "V4") :
    signTypedData cs lower recover accountDetails deviceAddressForPath channelResponse
        withAccount version
      = (.error .unsupportedTypedDataVersion, []) := by
  unfold signTypedData
  rw [if_pos]
  simp [hv]

/-- Witness for C8 at `version = some V3`. -/
theorem signTypedData_version_gate_witness :
    signTypedData id id id [] (fun _ => .error .unknownError) (true, ⟨none, none⟩)
        "0xAb" (some "V3")
      = (.error .unsupportedTypedDataVersion, []) :=
  signTypedData_version_gate id id id [] (fun _ => .error .unknownError)
    (true, ⟨none, none⟩) "0xAb" (some "V3") (by decide)

/-- C10: when `#sendMessage` runs while the iframe is not loaded (or has no
content window), it throws `The iframe is not loaded yet`, but only AFTER
registering the callback under the freshly allocated messageId: the rejected
send leaves the pending-callback table exactly one entry larger, keyed by an id
that was not in the table before (freshness of the uuid modelled by the counter
invariant), and posts nothing (the `.error` outcome carries no posted message),
so the new entry has no response that could ever consume it. -/
theorem sendMessage_registers_before_throwing {κ : Type} (st : SendState κ)
    (message : IFrameMessage) (callback : κ)
    (hfresh : ∀ p ∈ st.messageCallbacks, p.1 < st.nextMessageId)
    (hnotready : st.iframeLoaded = false ∨ st.hasContentWindow = false) :
    (sendMessage st message callback).2 = .error .iframeNotLoaded
    ∧ (sendMessage st message callback).1.messageCallbacks
        = st.messageCallbacks ++ [(st.nextMessageId, callback)]
    ∧ (sendMessage st message callback).1.messageCallbacks.length
        = st.messageCallbacks.length + 1
    ∧ recordHas st.messageCallbacks st.nextMessageId = false := by
  have hcond : (!st.iframeLoaded || !st.hasContentWindow) = true := by
    rcases hnotready with h | h <;> simp [h]
  have hhas : recordHas st.messageCallbacks st.nextMessageId = false := by
    rw [Bool.eq_false_iff]
    intro hcontra
    obtain ⟨p, hp, hpk⟩ := (recordHas_iff _ _).mp hcontra
    exact absurd hpk (Nat.ne_of_lt (hfresh p hp))
  refine ⟨?_, ?_, ?_, hhas⟩ <;> simp [sendMessage, hcond]

/-- Witness for C10 with an unloaded iframe and one prior pending entry. -/
theorem sendMessage_registers_before_throwing_witness :
    (sendMessage (κ := Nat) ⟨false, false, 1, [(0, 7)]⟩ ⟨.ledgerUnlock, []⟩ 9).2
        = .error .iframeNotLoaded
    ∧ (sendMessage (κ := Nat) ⟨false, false, 1, [(0, 7)]⟩ ⟨.ledgerUnlock, []⟩ 9).1.messageCallbacks
        = [(0, 7)] ++ [(1, 9)]
    ∧ (sendMessage (κ := Nat) ⟨false, false, 1, [(0, 7)]⟩ ⟨.ledgerUnlock, []⟩ 9).1.messageCallbacks.length
        = [(0, 7)].length + 1
    ∧ recordHas [((0 : Nat), (7 : Nat))] 1 = false :=
  sendMessage_registers_before_throwing ⟨false, false, 1, [(0, 7)]⟩ ⟨.ledgerUnlock, []⟩ 9
    (by decide) (Or.inl rfl)

/-- C7 counterexample. The claim opens with "unlock resolves to an address",
but in the already-unlocked, no-path branch the source resolves with the
literal string `already unlocked` (line 313), which is not an address (it does
not even begin with the 0x prefix every checksummed address carries): from an
unlocked keyring, `unlock()` immediately resolves that constant. -/
theorem unlock_resolves_non_address :
    (unlockStep (κ := Unit) ⟨true, true, 0, []⟩ ⟨some "04ab", some "cc"⟩ hdPathString
        none ()).2.2
      = .immediatelyResolved "already unlocked"
    ∧ ("already unlocked").data.take 2 ≠ ['0', 'x'] := by
  exact ⟨rfl, by decide⟩

/-- C7 amended: whenever the keyring is already unlocked (master public key
present) and no path argument is given, unlock returns immediately — resolving
the constant string `already unlocked` rather than an address — without
sending any request over the channel (no `#sendMessage` call, hence no posted
message and no new callback), leaving the pending-callback table and the master
key material exactly unchanged. -/
theorem unlock_short_circuit_no_request {κ : Type} (st : SendState κ)
    (hdk : HdKeyState) (currentHdPath : String) (callback : κ)
    (hunlocked : isUnlocked hdk = true) :
    unlockStep st hdk currentHdPath none callback
      = (st, hdk, .immediatelyResolved "already unlocked") := by
  unfold unlockStep
  rw [if_pos]
  rw [hunlocked]
  rfl

/-- Witness for the amended C7 at a concrete unlocked keyring. -/
theorem unlock_short_circuit_no_request_witness :
    unlockStep (κ := Nat) ⟨true, true, 3, [(0, 5)]⟩ ⟨some "04ab", some "cc"⟩
        hdPathString none 9
      = (⟨true, true, 3, [(0, 5)]⟩, ⟨some "04ab", some "cc"⟩,
         .immediatelyResolved "already unlocked") :=
  unlock_short_circuit_no_request ⟨true, true, 3, [(0, 5)]⟩ ⟨some "04ab", some "cc"⟩
    hdPathString 9 rfl

/-- C1: each of the three signing operations rejects — and never resolves —
when the returned signature components fail verification.
(1) signPersonalMessage: a successful signMessage response whose assembled
signature recovers (via eth-sig-util) to a signer whose checksummed form
differs from the requested account's settles the promise rejected with the
mismatch error: the source's unconditional `resolve(signature)` after the
`reject` (lines 545-552) is a no-op because the first settle wins, so the
signature is never exposed as a resolution value.
(2) signTypedData: same mismatch check, thrown (lines 644-649).
(3) #signTransaction: a successful signTransaction response whose reconstructed
transaction fails `verifySignature()` rejects with the invalid-signature error
(lines 806-813); the reconstructed transaction is never resolved. -/
theorem signing_mismatch_always_rejected :
    (∀ (cs : String → String) (recover : String → String → String)
        (message withAccount : String) (v : Nat) (r s : String) (err : Option String),
      cs (recover message (getSignature v r s)) ≠ cs withAccount →
      signPersonalMessageCallback cs recover message withAccount true
          ⟨some (.signMessage v r s), err⟩
        = some (.rejected .signatureMismatch))
    ∧ (∀ (cs : String → String) (recover : String → String)
        (withAccount : String) (v : Nat) (r s : String) (err : Option String),
      cs (recover (getSignature v r s)) ≠ cs withAccount →
      signTypedDataResponse cs recover withAccount true
          ⟨some (.signMessage v r s), err⟩
        = .error .signatureMismatch)
    ∧ (∀ (Tx : Type) (handleSigning : String → String → String → Tx)
        (verifySignature : Tx → Bool) (v r s : String) (err : Option String),
      verifySignature (handleSigning v r s) = false →
      signTransactionCallback handleSigning verifySignature true
          ⟨some (.signTransaction v r s), err⟩
        = some (.rejected .invalidTransactionSignature)) := by
  refine ⟨?_, ?_, ?_⟩
  · intro cs recover message withAccount v r s err hne
    simp [signPersonalMessageCallback, promiseReject, promiseResolve, hne]
  · intro cs recover withAccount v r s err hne
    simp [signTypedDataResponse, hne]
  · intro Tx handleSigning verifySignature v r s err hinvalid
    simp [signTransactionCallback, promiseReject, hinvalid]

/-- Witness for C1: concrete mismatched responses for all three operations
(checksum modelled by the identity, a recovery returning a different signer,
a verification that fails). -/
theorem signing_mismatch_always_rejected_witness :
    signPersonalMessageCallback id (fun _ _ => "0xaaa") "hello" "0xbbb" true
        ⟨some (.signMessage 27 "aa" "bb"), none⟩
      = some (.rejected .signatureMismatch)
    ∧ signTypedDataResponse id (fun _ => "0xaaa") "0xbbb" true
        ⟨some (.signMessage 27 "aa" "bb"), none⟩
      = .error .signatureMismatch
    ∧ signTransactionCallback (fun v r s => v ++ r ++ s) (fun _ => false) true
        ⟨some (.signTransaction "25" "aa" "bb"), none⟩
      = some (.rejected .invalidTransactionSignature) :=
  ⟨signing_mismatch_always_rejected.1 id (fun _ _ => "0xaaa") "hello" "0xbbb" 27 "aa" "bb"
      none (by decide),
   signing_mismatch_always_rejected.2.1 id (fun _ => "0xaaa") "0xbbb" 27 "aa" "bb"
      none (by decide),
   signing_mismatch_always_rejected.2.2 String (fun v r s => v ++ r ++ s) (fun _ => false)
      "25" "aa" "bb" none rfl⟩

theorem contains_map_lower_iff (lower : String → String) (accounts : List String)
    (address : String) :
    ((accounts.map lower).contains (lower address) = true)
      ↔ ∃ a ∈ accounts, lower a = lower address := by
  rw [List.contains_iff_exists_mem_beq]
  constructor
  · rintro ⟨b, hb, hbeq⟩
    rw [List.mem_map] at hb
    obtain ⟨a, ha, rfl⟩ := hb
    exact ⟨a, ha, (eq_of_beq hbeq).symm⟩
  · rintro ⟨a, ha, heq⟩
    exact ⟨lower a, List.mem_map_of_mem lower ha, beq_iff_eq.mpr heq.symm⟩

theorem removeAccount_error_iff (cs lower : String → String) (st : KeyringState)
    (address : String) :
    removeAccount cs lower st address = .error (.addressNotFoundInKeyring address)
      ↔ ∀ a ∈ st.accounts, lower a ≠ lower address := by
  unfold removeAccount
  by_cases hb : ((st.accounts.map lower).contains (lower address)) = true
  · rw [hb]
    obtain ⟨a, ha, heq⟩ := (contains_map_lower_iff lower st.accounts address).mp hb
    simp only [Bool.not_true, Bool.false_eq_true, if_false]
    constructor
    · intro hcontra
      simp at hcontra
    · intro hall
      exact absurd heq (hall a ha)
  · have hb' : ((st.accounts.map lower).contains (lower address)) = false :=
      eq_false_of_ne_true hb
    rw [hb']
    simp only [Bool.not_false, if_true]
    constructor
    · intro _ a ha heq
      exact hb ((contains_map_lower_iff lower st.accounts address).mpr ⟨a, ha, heq⟩)
    · intro _
      trivial

theorem removeAccount_ok_eq (cs lower : String → String) (st : KeyringState)
    (address : String)
    (hb : ((st.accounts.map lower).contains (lower address)) = true) :
    removeAccount cs lower st address =
      .ok { st with
        accounts := st.accounts.filter (fun a => !(lower a == lower address))
        accountDetails := recordDelete st.accountDetails (cs address) } := by
  unfold removeAccount
  rw [hb]
  simp

/-- C4: removeAccount(address) fails with the account-not-found error exactly
when no entry of the account list matches the address case-insensitively; on
that failure the keyring state is entirely unchanged (the source throws before
mutating; `applyOp` reflects that). On success it removes every
case-insensitive match from the account list and deletes the checksummed
accountDetails key in the same step (no intermediate state in which only one
happened is ever produced), leaving all other fields untouched — and a second
removeAccount of the same address then fails with the not-found error. -/
theorem removeAccount_not_found_and_atomic (cs lower : String → String)
    (addrOf : Nat → String) (st : KeyringState) (address : String) :
    (removeAccount cs lower st address = .error (.addressNotFoundInKeyring address)
      ↔ ∀ a ∈ st.accounts, lower a ≠ lower address)
    ∧ ((∀ a ∈ st.accounts, lower a ≠ lower address) →
        applyOp cs lower addrOf st (.removeAccountOp address) = st)
    ∧ (∀ st2, removeAccount cs lower st address = .ok st2 →
        st2.accounts = st.accounts.filter (fun a => !(lower a == lower address))
        ∧ st2.accountDetails = recordDelete st.accountDetails (cs address)
        ∧ st2.hdPath = st.hdPath
        ∧ st2.paths = st.paths
        ∧ st2.implementFullBIP44 = st.implementFullBIP44
        ∧ removeAccount cs lower st2 address
            = .error (.addressNotFoundInKeyring address)) := by
  refine ⟨removeAccount_error_iff cs lower st address, ?_, ?_⟩
  · intro hall
    have hrm := (removeAccount_error_iff cs lower st address).mpr hall
    simp [applyOp, hrm]
  · intro st2 hok
    by_cases hb : ((st.accounts.map lower).contains (lower address)) = true
    · rw [removeAccount_ok_eq cs lower st address hb] at hok
      have hst2 := (Except.ok.injEq _ _).mp hok.symm
      subst hst2
      refine ⟨rfl, rfl, rfl, rfl, rfl, ?_⟩
      apply (removeAccount_error_iff cs lower _ address).mpr
      intro a ha heq
      rw [List.mem_filter] at ha
      have := ha.2
      simp [heq] at this
    · have hall : ∀ a ∈ st.accounts, lower a ≠ lower address := by
        intro a ha heq
        exact hb ((contains_map_lower_iff lower st.accounts address).mpr ⟨a, ha, heq⟩)
      have hrm := (removeAccount_error_iff cs lower st address).mpr hall
      rw [hrm] at hok
      simp at hok

/-- Witness for C4: removing account `0xAb` by the differently-cased address
`0xaB` (checksum modelled by the identity, lowercasing by `asciiLower`)
succeeds atomically, and a second removal of the same address fails with the
not-found error; removing from an empty keyring leaves the state unchanged. -/
theorem removeAccount_not_found_and_atomic_witness :
    (applyOp id asciiLower (fun _ => "") initialKeyringState
        (.removeAccountOp "0xCd") = initialKeyringState)
    ∧ (sampleRemoveStateAfter.accounts
          = sampleRemoveState.accounts.filter
              (fun a => !(asciiLower a == asciiLower "0xaB"))
        ∧ sampleRemoveStateAfter.accountDetails
            = recordDelete sampleRemoveState.accountDetails (id "0xaB")
        ∧ sampleRemoveStateAfter.hdPath = sampleRemoveState.hdPath
        ∧ sampleRemoveStateAfter.paths = sampleRemoveState.paths
        ∧ sampleRemoveStateAfter.implementFullBIP44 = sampleRemoveState.implementFullBIP44
        ∧ removeAccount id asciiLower sampleRemoveStateAfter "0xaB"
            = .error (.addressNotFoundInKeyring "0xaB")) :=
  ⟨(removeAccount_not_found_and_atomic id asciiLower (fun _ => "")
        initialKeyringState "0xCd").2.1 (by decide),
   (removeAccount_not_found_and_atomic id asciiLower (fun _ => "")
        sampleRemoveState "0xaB").2.2 sampleRemoveStateAfter rfl⟩

theorem scanForIndex_unfold (addrOf : Nat → String) (a : String) (i : Nat) :
    scanForIndex addrOf a i =
      if i < MAX_INDEX then
        (if a = addrOf i then .ok i else scanForIndex addrOf a (i + 1))
      else .error .unknownAddress := by
  rw [scanForIndex]
  by_cases h : i < MAX_INDEX <;> simp [h]

theorem scanForIndex_error_imp (addrOf : Nat → String) (a : String) :
    ∀ n i, n = MAX_INDEX - i → ∀ e, scanForIndex addrOf a i = .error e →
      e = KError.unknownAddress ∧ ∀ j, i ≤ j → j < MAX_INDEX → addrOf j ≠ a := by
  intro n
  induction n with
  | zero =>
      intro i hn e he
      have hge : MAX_INDEX ≤ i := by omega
      rw [scanForIndex_unfold] at he
      rw [if_neg (by omega)] at he
      refine ⟨by exact (Except.error.injEq _ _).mp he.symm, ?_⟩
      intro j hij hj
      omega
  | succ n ih =>
      intro i hn e he
      by_cases hi : i < MAX_INDEX
      · rw [scanForIndex_unfold, if_pos hi] at he
        by_cases hm : a = addrOf i
        · rw [if_pos hm] at he
          simp at he
        · rw [if_neg hm] at he
          obtain ⟨he1, he2⟩ := ih (i + 1) (by omega) e he
          refine ⟨he1, ?_⟩
          intro j hij hj
          rcases Nat.eq_or_lt_of_le hij with rfl | hlt
          · exact fun hc => hm hc.symm
          · exact he2 j hlt hj
      · rw [scanForIndex_unfold, if_neg hi] at he
        refine ⟨by exact (Except.error.injEq _ _).mp he.symm, ?_⟩
        intro j hij hj
        omega

theorem scanForIndex_error_of_no_match (addrOf : Nat → String) (a : String) :
    ∀ n i, n = MAX_INDEX - i → (∀ j, i ≤ j → j < MAX_INDEX → addrOf j ≠ a) →
      scanForIndex addrOf a i = .error .unknownAddress := by
  intro n
  induction n with
  | zero =>
      intro i hn _
      rw [scanForIndex_unfold, if_neg (by omega)]
  | succ n ih =>
      intro i hn hno
      by_cases hi : i < MAX_INDEX
      · rw [scanForIndex_unfold, if_pos hi,
          if_neg (fun hc => hno i (Nat.le_refl i) hi hc.symm)]
        exact ih (i + 1) (by omega) (fun j hij hj => hno j (by omega) hj)
      · rw [scanForIndex_unfold, if_neg hi]

theorem scanForIndex_finds_unique (addrOf : Nat → String) (tgt : Nat) :
    ∀ n i, n = MAX_INDEX - i → i ≤ tgt → tgt < MAX_INDEX →
      (∀ j, i ≤ j → j < MAX_INDEX → addrOf j = addrOf tgt → j = tgt) →
      scanForIndex addrOf (addrOf tgt) i = .ok tgt := by
  intro n
  induction n with
  | zero =>
      intro i hn hle hlt _
      omega
  | succ n ih =>
      intro i hn hle hlt huniq
      have hi : i < MAX_INDEX := by omega
      rw [scanForIndex_unfold, if_pos hi]
      by_cases hm : addrOf tgt = addrOf i
      · have : i = tgt := huniq i (Nat.le_refl i) hi hm.symm
        rw [if_pos hm, this]
      · rw [if_neg hm]
        have hne : i ≠ tgt := fun hc => hm (by rw [hc])
        exact ih (i + 1) (by omega) (by omega) hlt (fun j hij hj => huniq j (by omega) hj)

/-- C5: under the legacy policy with master key material set, `#getPathIndex`
is a left inverse of `#addressFromIndex` (abstracted as the total derivation
`addrOf`): for every index `i < MAX_INDEX`, looking up the address derived at
`i` returns `i`, whether it is served from a consistent `paths` cache or by the
linear scan — provided derivation is collision-free below the scan limit, which
is the cryptographic premise of the claim. And the lookup fails (necessarily
with the unknown-address error) exactly when the address is not cached and all
indices `0 ≤ j < MAX_INDEX` derive something else. -/
theorem getPathIndex_left_inverse (paths : List (String × Nat)) (addrOf : Nat → String)
    (hcache : ∀ p ∈ paths, addrOf p.2 = p.1 ∧ p.2 < MAX_INDEX)
    (hinj : ∀ i j, i < MAX_INDEX → j < MAX_INDEX → addrOf i = addrOf j → i = j) :
    (∀ i, i < MAX_INDEX → getPathIndex paths addrOf (addrOf i) = .ok i)
    ∧ (∀ a e, getPathIndex paths addrOf a = .error e →
        e = KError.unknownAddress ∧ recordGet paths a = none
          ∧ ∀ j, j < MAX_INDEX → addrOf j ≠ a)
    ∧ (∀ a, recordGet paths a = none → (∀ j, j < MAX_INDEX → addrOf j ≠ a) →
        getPathIndex paths addrOf a = .error .unknownAddress) := by
  refine ⟨?_, ?_, ?_⟩
  · intro i hi
    unfold getPathIndex
    cases hget : recordGet paths (addrOf i) with
    | some j =>
        obtain ⟨pr, hfind, hsnd⟩ :
            ∃ pr, paths.find? (fun p => p.1 == addrOf i) = some pr ∧ pr.2 = j := by
          unfold recordGet at hget
          cases hf : paths.find? (fun p => p.1 == addrOf i) with
          | none => rw [hf] at hget; simp at hget
          | some pr => rw [hf] at hget; simp at hget; exact ⟨pr, rfl, hget⟩
        have hmem : pr ∈ paths := List.mem_of_find?_eq_some hfind
        have hkey : pr.1 = addrOf i := by
          have := List.find?_some hfind
          exact eq_of_beq this
        obtain ⟨hderiv, hbound⟩ := hcache pr hmem
        have : pr.2 = i := hinj pr.2 i hbound hi (by rw [hderiv, hkey])
        rw [← hsnd, this]
    | none =>
        exact scanForIndex_finds_unique addrOf i (MAX_INDEX - 0) 0 rfl (Nat.zero_le i) hi
          (fun j _ hj hja => hinj j i hj hi hja)
  · intro a e he
    unfold getPathIndex at he
    cases hget : recordGet paths a with
    | some j => rw [hget] at he; simp at he
    | none =>
        rw [hget] at he
        obtain ⟨he1, he2⟩ := scanForIndex_error_imp addrOf a (MAX_INDEX - 0) 0 rfl e he
        exact ⟨he1, rfl, fun j hj => he2 j (Nat.zero_le j) hj⟩
  · intro a hget hno
    unfold getPathIndex
    rw [hget]
    exact scanForIndex_error_of_no_match addrOf a (MAX_INDEX - 0) 0 rfl
      (fun j _ hj => hno j hj)

/-- Witness for C5 with the injective derivation mapping index `i` to the
string of `i` copies of the letter a, an empty cache, and target index 0. -/
theorem getPathIndex_left_inverse_witness :
    getPathIndex [] (fun i => String.mk (List.replicate i 'a'))
        ((fun i => String.mk (List.replicate i 'a')) 0)
      = .ok 0 :=
  (getPathIndex_left_inverse [] (fun i => String.mk (List.replicate i 'a'))
      (fun p hp => absurd hp (List.not_mem_nil p))
      (fun i j _ _ h => by
        have hdata : List.replicate i 'a' = List.replicate j 'a' := congrArg String.data h
        simpa using congrArg List.length hdata)).1 0 (by decide)

theorem getAccountsBIP44Loop_no_gate (unlockAddr : Nat → String)
    (hasPrevTx : String → Bool) :
    ∀ k i, getAccountsBIP44Loop unlockAddr hasPrevTx false k i
      = ((List.range' i k).map (fun j => (unlockAddr j, j)), List.range' i k) := by
  intro k
  induction k with
  | zero => intro i; rfl
  | succ k ih =>
      intro i
      rw [List.range'_succ]
      simp only [getAccountsBIP44Loop, if_false, Bool.false_eq_true, ih (i + 1),
        List.map_cons]
      simp

theorem getAccountsBIP44Loop_gate_spec (unlockAddr : Nat → String)
    (hasPrevTx : String → Bool) :
    ∀ k i,
      (getAccountsBIP44Loop unlockAddr hasPrevTx true k i).2
          = (getAccountsBIP44Loop unlockAddr hasPrevTx true k i).1.map Prod.snd
      ∧ (getAccountsBIP44Loop unlockAddr hasPrevTx true k i).1.map Prod.snd
          = List.range' i (getAccountsBIP44Loop unlockAddr hasPrevTx true k i).1.length
      ∧ (∀ e ∈ (getAccountsBIP44Loop unlockAddr hasPrevTx true k i).1, e.1 = unlockAddr e.2)
      ∧ (getAccountsBIP44Loop unlockAddr hasPrevTx true k i).1.length ≤ k
      ∧ (∀ e ∈ (getAccountsBIP44Loop unlockAddr hasPrevTx true k i).1.dropLast,
          hasPrevTx e.1 = true)
      ∧ ((getAccountsBIP44Loop unlockAddr hasPrevTx true k i).1.length < k →
          ∃ last, (getAccountsBIP44Loop unlockAddr hasPrevTx true k i).1.getLast? = some last
            ∧ hasPrevTx last.1 = false) := by
  intro k
  induction k with
  | zero =>
      intro i
      refine ⟨rfl, rfl, ?_, ?_, ?_, ?_⟩ <;> simp [getAccountsBIP44Loop]
  | succ k ih =>
      intro i
      by_cases hp : hasPrevTx (unlockAddr i) = true
      · have hstep :
            getAccountsBIP44Loop unlockAddr hasPrevTx true (k + 1) i
              = ((unlockAddr i, i) ::
                  (getAccountsBIP44Loop unlockAddr hasPrevTx true k (i + 1)).1,
                 i :: (getAccountsBIP44Loop unlockAddr hasPrevTx true k (i + 1)).2) := by
          simp only [getAccountsBIP44Loop, if_true, hp]
        obtain ⟨ih1, ih2, ih3, ih4, ih5, ih6⟩ := ih (i + 1)
        rw [hstep]
        refine ⟨?_, ?_, ?_, ?_, ?_, ?_⟩
        · simp [ih1]
        · simp only [List.map_cons, List.length_cons]
          rw [List.range'_succ, ih2]
        · intro e he
          rcases List.mem_cons.mp he with rfl | he2
          · rfl
          · exact ih3 e he2
        · simp only [List.length_cons]
          omega
        · cases hre : (getAccountsBIP44Loop unlockAddr hasPrevTx true k (i + 1)).1 with
          | nil => simp
          | cons y ys =>
              intro e he
              rw [List.dropLast_cons₂] at he
              rcases List.mem_cons.mp he with rfl | he2
              · exact hp
              · rw [← hre] at he2
                exact ih5 e (by rw [hre]; rw [hre] at he2; exact he2)
        · intro hlen
          simp only [List.length_cons] at hlen
          have hlt : (getAccountsBIP44Loop unlockAddr hasPrevTx true k (i + 1)).1.length < k := by
            omega
          obtain ⟨last, hlast, hfalse⟩ := ih6 hlt
          cases hre : (getAccountsBIP44Loop unlockAddr hasPrevTx true k (i + 1)).1 with
          | nil => rw [hre] at hlast; simp at hlast
          | cons y ys =>
              refine ⟨last, ?_, hfalse⟩
              rw [List.getLast?_cons_cons]
              rw [hre] at hlast
              exact hlast
      · have hp' : hasPrevTx (unlockAddr i) = false := eq_false_of_ne_true hp
        have hstep :
            getAccountsBIP44Loop unlockAddr hasPrevTx true (k + 1) i
              = ([(unlockAddr i, i)], [i]) := by
          simp only [getAccountsBIP44Loop, if_true, hp']
          simp
        rw [hstep]
        refine ⟨rfl, rfl, ?_, by simp, by simp, ?_⟩
        · intro e he
          rcases List.mem_cons.mp he with rfl | he2
          · rfl
          · simp at he2
        · intro _
          exact ⟨(unlockAddr i, i), rfl, hp'⟩

/-- C9: standard-policy account-page discovery starting at the page offset
`(page - 1) * perPage`. With `implementFullBIP44 = false` discovery never
stops early: the page is exactly the `perPage` consecutive indices from the
offset, each paired with its unlocked address, and exactly those indices are
unlocked. With `implementFullBIP44 = true` the loop stops at the first index
whose address has no prior on-chain activity: the returned entries are
consecutive indices from the offset, every entry before the last has activity,
a short page ends in an inactivity-gated entry, and the unlocked indices are
exactly the entries' indices — so no index after the first inactive one is
unlocked or included. -/
theorem bip44_gate_stops_at_first_inactive (unlockAddr : Nat → String)
    (hasPrevTx : String → Bool) (perPage page : Nat) (hpage : 1 ≤ page) :
    (getAccountsBIP44 unlockAddr hasPrevTx false ((page - 1) * perPage) perPage
        = ((List.range' ((page - 1) * perPage) perPage).map (fun j => (unlockAddr j, j)),
           List.range' ((page - 1) * perPage) perPage))
    ∧ (∀ entries unlocked,
        getAccountsBIP44 unlockAddr hasPrevTx true ((page - 1) * perPage) perPage
          = (entries, unlocked) →
        unlocked = entries.map Prod.snd
        ∧ entries.map Prod.snd = List.range' ((page - 1) * perPage) entries.length
        ∧ (∀ e ∈ entries, e.1 = unlockAddr e.2)
        ∧ entries.length ≤ perPage
        ∧ (∀ e ∈ entries.dropLast, hasPrevTx e.1 = true)
        ∧ (entries.length < perPage →
            ∃ last, entries.getLast? = some last ∧ hasPrevTx last.1 = false)) := by
  refine ⟨getAccountsBIP44Loop_no_gate unlockAddr hasPrevTx perPage _, ?_⟩
  intro entries unlocked heq
  obtain ⟨h1, h2, h3, h4, h5, h6⟩ :=
    getAccountsBIP44Loop_gate_spec unlockAddr hasPrevTx perPage ((page - 1) * perPage)
  unfold getAccountsBIP44 at heq
  have hent : entries = (getAccountsBIP44Loop unlockAddr hasPrevTx true perPage
      ((page - 1) * perPage)).1 := by rw [heq]
  have hunl : unlocked = (getAccountsBIP44Loop unlockAddr hasPrevTx true perPage
      ((page - 1) * perPage)).2 := by rw [heq]
  rw [hent, hunl]
  exact ⟨h1, h2, h3, h4, h5, h6⟩

/-- Witness for C9: page 1, page size 2, an activity check that always reports
no history — the gated discovery returns the single index-0 entry. -/
theorem bip44_gate_stops_at_first_inactive_witness :
    [(0 : Nat)] = [(("a" : String), (0 : Nat))].map Prod.snd
    ∧ [(("a" : String), (0 : Nat))].map Prod.snd
        = List.range' ((1 - 1) * 2) [(("a" : String), (0 : Nat))].length
    ∧ (∀ e ∈ [(("a" : String), (0 : Nat))], e.1 = (fun _ => "a") e.2)
    ∧ [(("a" : String), (0 : Nat))].length ≤ 2
    ∧ (∀ e ∈ [(("a" : String), (0 : Nat))].dropLast, (fun _ => false) e.1 = true)
    ∧ ([(("a" : String), (0 : Nat))].length < 2 →
        ∃ last, [(("a" : String), (0 : Nat))].getLast? = some last
          ∧ (fun _ => false) last.1 = false) :=
  (bip44_gate_stops_at_first_inactive (fun _ => "a") (fun _ => false) 2 1 (by decide)).2
    [("a", 0)] [0] rfl

theorem bridgeFold_no_onload :
    ∀ (events : List BridgeEvent) (st : BridgeState) (outs : List BridgeOutput),
      st.iframeLoaded = false → st.messageCallbacks = [] →
      BridgeEvent.iframeOnload ∉ events →
      (events.foldl
          (fun acc e =>
            let next := bridgeStep acc.1 e
            (next.1, acc.2 ++ next.2))
          (st, outs)).2 = outs := by
  intro events
  induction events with
  | nil => intro st outs _ _ _; rfl
  | cons e es ih =>
      intro st outs hload hcb hno
      have hno' : BridgeEvent.iframeOnload ∉ es :=
        fun hc => hno (List.mem_cons_of_mem e hc)
      cases e with
      | callUpdateTransport c m =>
          rw [List.foldl_cons]
          show (es.foldl _ ((bridgeStep st (.callUpdateTransport c m)).1,
              outs ++ (bridgeStep st (.callUpdateTransport c m)).2)).2 = outs
          have hstep : bridgeStep st (.callUpdateTransport c m)
              = ({ st with delayedPromise := some (c, m) }, []) := by
            simp [bridgeStep, hload]
          rw [hstep]
          show (es.foldl _ ({ st with delayedPromise := some (c, m) },
              outs ++ ([] : List BridgeOutput))).2 = outs
          rw [List.append_nil]
          exact ih _ _ hload hcb hno'
      | iframeOnload =>
          exact absurd (List.mem_cons_self _ _) hno
      | channelReply mid ok =>
          rw [List.foldl_cons]
          show (es.foldl _ ((bridgeStep st (.channelReply mid ok)).1,
              outs ++ (bridgeStep st (.channelReply mid ok)).2)).2 = outs
          have hstep : bridgeStep st (.channelReply mid ok) = (st, []) := by
            simp [bridgeStep, hcb, recordGet]
          rw [hstep]
          show (es.foldl _ (st, outs ++ ([] : List BridgeOutput))).2 = outs
          rw [List.append_nil]
          exact ih st outs hload hcb hno'

/-- C6: (1) before the channel's one-time readiness transition
(`iframe.onload`), no caller's `updateTransportMethod` promise ever settles —
in any event sequence containing no onload, the observable trace contains no
settlement at all, so a pre-readiness caller's promise settles only after
readiness is reached. (2) Two calls before readiness leave only the second
call's transport mode in the single `delayedPromise` slot. (3) When readiness
then arrives and the bridge replies, the full trace is: readiness, the posting
of the SECOND call's mode (the deferred configuration being applied over the
channel), and only then the settlement of the second caller — the first
caller's mode is never posted and the settlement follows the application. -/
theorem updateTransport_deferred_until_ready :
    (∀ events, BridgeEvent.iframeOnload ∉ events →
        ∀ caller ok, BridgeOutput.settled caller ok ∉ (bridgeRun initialBridgeState events).2)
    ∧ (∀ c1 m1 c2 m2,
        (bridgeRun initialBridgeState
            [.callUpdateTransport c1 m1, .callUpdateTransport c2 m2]).1.delayedPromise
          = some (c2, m2))
    ∧ (∀ c1 m1 c2 m2 ok,
        (bridgeRun initialBridgeState
            [.callUpdateTransport c1 m1, .callUpdateTransport c2 m2, .iframeOnload,
             .channelReply 0 ok]).2
          = [.iframeReady, .postUpdateTransport 0 m2, .settled c2 ok]) := by
  refine ⟨?_, ?_, ?_⟩
  · intro events hno caller ok
    have h := bridgeFold_no_onload events initialBridgeState [] rfl rfl hno
    unfold bridgeRun
    rw [h]
    exact List.not_mem_nil _
  · intro c1 m1 c2 m2
    rfl
  · intro c1 m1 c2 m2 ok
    rfl

/-- Witness for C6: a single pre-readiness call produces no settlement. -/
theorem updateTransport_deferred_until_ready_witness :
    BridgeOutput.settled 0 true
      ∉ (bridgeRun initialBridgeState [.callUpdateTransport 0 "webusb"]).2 :=
  updateTransport_deferred_until_ready.1 [.callUpdateTransport 0 "webusb"]
    (by decide) 0 true

theorem accountsHaveDetails_deserialize (cs : String → String) (addrOf : Nat → String)
    (st : KeyringState) (opts : DeserializeOpts) :
    accountsHaveDetails cs (deserialize cs addrOf st opts) := by
  intro a ha
  simp only [deserialize] at ha ⊢
  rw [List.mem_filter] at ha
  exact ha.2

theorem accountsHaveDetails_addAccountsStep (cs : String → String) (st : KeyringState)
    (i : Nat) (address : String) (h : accountsHaveDetails cs st) :
    accountsHaveDetails cs (addAccountsStep cs st i address) := by
  intro a ha
  simp only [addAccountsStep] at ha ⊢
  have hgoal :
      (∃ p ∈ st.accountDetails, p.1 = cs a) ∨ cs a = cs address →
      recordHas
        (recordSet st.accountDetails (cs address)
          ⟨isLedgerLiveHdPath st.hdPath, getPathForIndex st.hdPath i⟩) (cs a) = true :=
    fun hd => (recordHas_iff _ _).mpr ((recordSet_key_iff _ _ _ _).mpr hd)
  by_cases hc : st.accounts.contains address
  · rw [if_pos hc] at ha ⊢
    exact hgoal (Or.inl ((recordHas_iff _ _).mp (h a ha)))
  · rw [if_neg hc] at ha ⊢
    rw [List.mem_append, List.mem_singleton] at ha
    rcases ha with ha | rfl
    · exact hgoal (Or.inl ((recordHas_iff _ _).mp (h a ha)))
    · exact hgoal (Or.inr rfl)

theorem accountsHaveDetails_addAccounts (cs : String → String) (st : KeyringState)
    (resolved : List (Nat × String)) (h : accountsHaveDetails cs st) :
    accountsHaveDetails cs (addAccounts cs st resolved) := by
  induction resolved generalizing st with
  | nil => exact h
  | cons p ps ih =>
      exact ih (addAccountsStep cs st p.1 p.2)
        (accountsHaveDetails_addAccountsStep cs st p.1 p.2 h)

theorem accountsHaveDetails_removeOp (cs lower : String → String) (addrOf : Nat → String)
    (st : KeyringState) (address : String)
    (hcs : ∀ x y, cs x = cs y → lower x = lower y)
    (h : accountsHaveDetails cs st) :
    accountsHaveDetails cs (applyOp cs lower addrOf st (.removeAccountOp address)) := by
  by_cases hb : ((st.accounts.map lower).contains (lower address)) = true
  · have happ : applyOp cs lower addrOf st (.removeAccountOp address)
        = { st with
            accounts := st.accounts.filter (fun a => !(lower a == lower address))
            accountDetails := recordDelete st.accountDetails (cs address) } := by
      show (match removeAccount cs lower st address with
            | .ok st2 => st2
            | .error _ => st) = _
      rw [removeAccount_ok_eq cs lower st address hb]
    rw [happ]
    intro a ha
    rw [List.mem_filter] at ha
    have hmem := (recordHas_iff _ _).mp (h a ha.1)
    have hne : lower a ≠ lower address := by
      have := ha.2
      simpa using this
    have hkey : cs a ≠ cs address := fun hc => hne (hcs a address hc)
    exact (recordHas_iff _ _).mpr ((recordDelete_key_iff _ _ _).mpr ⟨hmem, hkey⟩)
  · have hall : ∀ a ∈ st.accounts, lower a ≠ lower address := by
      intro a ha heq
      exact hb ((contains_map_lower_iff lower st.accounts address).mpr ⟨a, ha, heq⟩)
    have happ : applyOp cs lower addrOf st (.removeAccountOp address) = st := by
      show (match removeAccount cs lower st address with
            | .ok st2 => st2
            | .error _ => st) = st
      rw [(removeAccount_error_iff cs lower st address).mpr hall]
    rw [happ]
    exact h

theorem accountsHaveDetails_runOps (cs lower : String → String) (addrOf : Nat → String)
    (hcs : ∀ x y, cs x = cs y → lower x = lower y) :
    ∀ (ops : List KeyringOp) (st : KeyringState), accountsHaveDetails cs st →
      accountsHaveDetails cs (runOps cs lower addrOf st ops) := by
  intro ops
  induction ops with
  | nil => intro st h; exact h
  | cons op ops ih =>
      intro st h
      have hstep : accountsHaveDetails cs (applyOp cs lower addrOf st op) := by
        cases op with
        | deserializeOp opts => exact accountsHaveDetails_deserialize cs addrOf st opts
        | addAccountsOp resolved => exact accountsHaveDetails_addAccounts cs st resolved h
        | removeAccountOp address =>
            exact accountsHaveDetails_removeOp cs lower addrOf st address hcs h
        | forgetDeviceOp =>
            intro a ha
            simp [applyOp, forgetDevice] at ha
      exact ih (applyOp cs lower addrOf st op) hstep

/-- C2 counterexample: the two-sided invariant as claimed is broken by a
`deserialize` that restores an `accountDetails` entry with no corresponding
account: with an empty account list and one orphan details entry, every key of
`accountDetails` is NOT an address of the account list after the operation
(checksum and lowercase instantiated with the identity, which satisfies their
interface). `deserialize` prunes only accounts lacking details (line 283),
never details lacking accounts. -/
theorem two_sided_invariant_fails :
    ¬ twoStructureInvariant id
        (runOps id id (fun _ => "") initialKeyringState
          [.deserializeOp ⟨none, some [], some [("0xOrphan", ⟨false, "m/0"⟩)], none, none⟩]) := by
  decide

/-- C2 amended: after every sequence of deserialize, addAccounts, removeAccount
and forgetDevice from the constructor's initial state, every address in the
accounts list has a corresponding accountDetails entry under address
checksumming (the direction the code maintains); the converse direction does
not hold in general (see the counterexample), accountDetails may carry keys
with no corresponding account. The only interface fact needed is that
checksumming two addresses to the same key forces them to agree
case-insensitively. -/
theorem accounts_always_have_details (cs lower : String → String) (addrOf : Nat → String)
    (hcs : ∀ x y, cs x = cs y → lower x = lower y) (ops : List KeyringOp) :
    accountsHaveDetails cs (runOps cs lower addrOf initialKeyringState ops) :=
  accountsHaveDetails_runOps cs lower addrOf hcs ops initialKeyringState
    (fun a ha => absurd ha (List.not_mem_nil a))

/-- Witness for the amended C2: an addAccounts followed by a failing
removeAccount, with checksum and lowercase instantiated by the identity. -/
theorem accounts_always_have_details_witness :
    accountsHaveDetails id
      (runOps id id (fun _ => "") initialKeyringState
        [.addAccountsOp [(0, "0xAbc")], .removeAccountOp "0xNone"]) :=
  accounts_always_have_details id id (fun _ => "") (fun _ _ h => h)
    [.addAccountsOp [(0, "0xAbc")], .removeAccountOp "0xNone"]
